import Mathlib

/-!
Verification of the music-library reconciliation core of the
obsidian-spotify-sync repository against its natural-language specification.

The definitions below are a shallow embedding of the TypeScript sources:

- identifier model and MusicIdIndex (src/sync/MusicIdIndex.ts);
- frontmatter documents and FrontmatterWriter (src/sync/FrontmatterWriter.ts,
  src/sync/frontmatterTypes.ts);
- the Spotify library source constructors (src/sync/music-sources/spotify/
  SpotifyLibrarySource.ts, SpotifyUtils.ts);
- the metadata enricher (src/sync/MusicMetadataEnricher.ts);
- the file manager, link generation and filename collision loop
  (src/sync/FileManager.ts);
- the full and incremental sync passes (src/sync/SyncEngine.ts).

JavaScript objects whose keys can be absent, present with the value undefined,
or present with a proper value are modelled with two nested Option layers:
none is an absent key, some none a key holding undefined, and some (some v) a
key holding the value v.  A read such as ids[key] collapses the two layers,
because JavaScript yields undefined both for an absent key and for a key set
to undefined.
-/

namespace SpotifySync

/-- The identifier kinds of MusicIdsFrontmatter (src/sync/frontmatterTypes.ts):
spotify_id, spotify_uri, mbid, upc, isrc. -/
inductive IdKind : Type
  | spotify_uri
  | spotify_id
  | upc
  | isrc
  | mbid
deriving DecidableEq, Fintype

/-- The music_ids record: a sparse JavaScript object with one optional string
field per identifier kind.  Each field is none when the key is absent,
some none when the key is present holding undefined, and some (some v) when the
key holds the string v. -/
structure MusicIds where
  spotify_uri : Option (Option String) := none
  spotify_id : Option (Option String) := none
  upc : Option (Option String) := none
  isrc : Option (Option String) := none
  mbid : Option (Option String) := none
deriving DecidableEq

/-- Own-property access for one identifier kind. -/
def MusicIds.getKey (ids : MusicIds) : IdKind → Option (Option String)
  | IdKind.spotify_uri => ids.spotify_uri
  | IdKind.spotify_id => ids.spotify_id
  | IdKind.upc => ids.upc
  | IdKind.isrc => ids.isrc
  | IdKind.mbid => ids.mbid

/-- The JavaScript read ids[key]: undefined both when the key is absent and
when it is present holding undefined. -/
def MusicIds.read (ids : MusicIds) (k : IdKind) : Option String :=
  (ids.getKey k).join

/-- JavaScript truthiness of a value of type string or undefined: false for
undefined and for the empty string. -/
def truthyId : Option String → Bool
  | none => false
  | some s => if s = "" then false else true

/-- One key of the object spread b over a: the key of b wins whenever b owns
it, even when b holds undefined; otherwise the key of a survives. -/
def spreadKey {α : Type} (a b : Option α) : Option α :=
  match b with
  | some v => some v
  | none => a

/-- The object spread spread of entity.ids over fm.music_ids performed by
FrontmatterWriter.updateCommonFrontmatter, applied key by key. -/
def spreadIds (a b : MusicIds) : MusicIds where
  spotify_uri := spreadKey a.spotify_uri b.spotify_uri
  spotify_id := spreadKey a.spotify_id b.spotify_id
  upc := spreadKey a.upc b.upc
  isrc := spreadKey a.isrc b.isrc
  mbid := spreadKey a.mbid b.mbid

/-- The music_sources record of MusicSourcesFrontmatter, together with the
in_library key that SyncEngine writes onto it dynamically.  The field named
local in the source is renamed localSource because local is reserved in Lean.
Fields follow the same two-layer Option convention as MusicIds. -/
structure MusicSources where
  spotify : Option (Option String) := none
  localSource : Option (Option String) := none
  online : Option (Option (List String)) := none
  in_library : Option (Option Bool) := none
deriving DecidableEq

/-- The object spread of entity.sources over fm.music_sources. -/
def spreadSources (a b : MusicSources) : MusicSources where
  spotify := spreadKey a.spotify b.spotify
  localSource := spreadKey a.localSource b.localSource
  online := spreadKey a.online b.online
  in_library := spreadKey a.in_library b.in_library

/-- The fixed priority order of MusicIdIndex.priorityOrder. -/
def priorityOrder : List IdKind :=
  [IdKind.spotify_uri, IdKind.spotify_id, IdKind.upc, IdKind.isrc, IdKind.mbid]

/-- MusicIdIndex (src/sync/MusicIdIndex.ts): one exact-match map per
identifier kind plus the master item list.  The JavaScript Maps are modelled
as association lists to which set prepends, so that a lookup finds the most
recently inserted binding, matching Map.set overwrite semantics; the items Set
is modelled as the list of registrations (every registration in the sync flows
passes a freshly constructed object). -/
structure MusicIdIndex (T : Type) where
  mapUri : List (String × T) := []
  mapId : List (String × T) := []
  mapUpc : List (String × T) := []
  mapIsrc : List (String × T) := []
  mapMbid : List (String × T) := []
  items : List T := []

/-- The map of one identifier kind. -/
def MusicIdIndex.mapFor {T : Type} (idx : MusicIdIndex T) : IdKind → List (String × T)
  | IdKind.spotify_uri => idx.mapUri
  | IdKind.spotify_id => idx.mapId
  | IdKind.upc => idx.mapUpc
  | IdKind.isrc => idx.mapIsrc
  | IdKind.mbid => idx.mapMbid

/-- Replace the map of one identifier kind. -/
def MusicIdIndex.withMap {T : Type} (idx : MusicIdIndex T) (k : IdKind)
    (m : List (String × T)) : MusicIdIndex T :=
  match k with
  | IdKind.spotify_uri => { idx with mapUri := m }
  | IdKind.spotify_id => { idx with mapId := m }
  | IdKind.upc => { idx with mapUpc := m }
  | IdKind.isrc => { idx with mapIsrc := m }
  | IdKind.mbid => { idx with mapMbid := m }

/-- Map.get on the association-list model: the most recently inserted binding
for the key, if any. -/
def assocGet {T : Type} (m : List (String × T)) (key : String) : Option T :=
  match m.find? (fun p => p.1 = key) with
  | some p => some p.2
  | none => none

/-- One step of MusicIdIndex.set for one kind: id && this.maps[key].set(id, item),
skipping absent, undefined and empty identifiers. -/
def setKind {T : Type} (ids : MusicIds) (item : T) (idx : MusicIdIndex T)
    (k : IdKind) : MusicIdIndex T :=
  match ids.read k with
  | none => idx
  | some v => if v = "" then idx else idx.withMap k ((v, item) :: idx.mapFor k)

/-- MusicIdIndex.set: track the item in the master list and register it under
every identifier kind present with a truthy value. -/
def MusicIdIndex.set {T : Type} (idx : MusicIdIndex T) (ids : MusicIds)
    (item : T) : MusicIdIndex T :=
  priorityOrder.foldl (setKind ids item) { idx with items := idx.items ++ [item] }

/-- One kind of the MusicIdIndex.has check: the query carries a truthy value
for the kind and that value is registered. -/
def hasKind {T : Type} (idx : MusicIdIndex T) (ids : MusicIds) (k : IdKind) : Bool :=
  match ids.read k with
  | none => false
  | some v => if v = "" then false else (assocGet (idx.mapFor k) v).isSome

/-- MusicIdIndex.has: some kind in priority order matches. -/
def MusicIdIndex.has {T : Type} (idx : MusicIdIndex T) (ids : MusicIds) : Bool :=
  priorityOrder.any (hasKind idx ids)

/-- The loop body of MusicIdIndex.get over a list of kinds: for each kind with
a truthy query value, return the registered item if the lookup hits, otherwise
continue with the remaining kinds. -/
def MusicIdIndex.getFrom {T : Type} (idx : MusicIdIndex T) (ids : MusicIds) :
    List IdKind → Option T
  | [] => none
  | k :: rest =>
    match ids.read k with
    | none => idx.getFrom ids rest
    | some v =>
      if v = "" then idx.getFrom ids rest
      else
        match assocGet (idx.mapFor k) v with
        | some item => some item
        | none => idx.getFrom ids rest

/-- MusicIdIndex.get: scan the kinds in priority order. -/
def MusicIdIndex.get {T : Type} (idx : MusicIdIndex T) (ids : MusicIds) : Option T :=
  idx.getFrom ids priorityOrder

/-- MusicIdIndex.values: the master item list. -/
def MusicIdIndex.values {T : Type} (idx : MusicIdIndex T) : List T :=
  idx.items

/-- The MusicIdIndex constructor: register every item under its extracted
identifier set. -/
def MusicIdIndex.ofItems {T : Type} (itemList : List T) (getIds : T → MusicIds) :
    MusicIdIndex T :=
  itemList.foldl (fun idx item => idx.set (getIds item) item) {}

/-- Specification of get transcribed from the claim text: the item registered
under the highest-priority identifier kind that is present with a non-empty
value in both the query and the index; missing when no kind matches. -/
def MusicIdIndex.getSpec {T : Type} (idx : MusicIdIndex T) (ids : MusicIds) : Option T :=
  match priorityOrder.find? (hasKind idx ids) with
  | some k => assocGet (idx.mapFor k) ((ids.read k).getD "")
  | none => none

/-- The common fields of the normalized MusicEntity model (src/sync/types.ts):
title, ids, sources, inLibrary, image, addedAt.  Moments are modelled as the
date strings they are formatted to.  The tier-specific relationship fields of
Album and Track are embedded separately where a claim needs them. -/
structure MusicEntityData where
  title : String := ""
  ids : MusicIds := {}
  sources : MusicSources := {}
  inLibrary : Option Bool := none
  image : Option String := none
  addedAt : Option String := none
deriving DecidableEq

/-- MusicFile of an entity: the entity data paired with the path of its
backing note file. -/
structure MusicFileD where
  path : String := ""
  ent : MusicEntityData := {}
deriving DecidableEq

/-- The identifier extraction MusicIdIndex.fromItems uses: item.ids. -/
def fileIds (f : MusicFileD) : MusicIds :=
  f.ent.ids

/-- The MusicFrontmatter document shape (src/sync/frontmatterTypes.ts).  The
album field can hold a string, null or undefined in JavaScript and therefore
uses the two-layer Option convention. -/
structure MusicFrontmatter where
  created : Option String := none
  modified : Option String := none
  title : Option String := none
  album : Option (Option String) := none
  artists : Option (List String) := none
  cover : Option String := none
  tracks : Option (List String) := none
  in_library : Option Bool := none
  music_ids : MusicIds := {}
  music_sources : MusicSources := {}
  aliases : Option (List String) := none
deriving DecidableEq

/-- The JavaScript nullish coalescing a ?? b for option-modelled values. -/
def coalesce {α : Type} (a b : Option α) : Option α :=
  match a with
  | some v => some v
  | none => b

/-- FrontmatterWriter.updateCommonFrontmatter: keep existing title, cover,
in_library and aliases, filling them from the entity when absent, and spread
the entity identifier and source records over the stored ones. -/
def updateCommonFrontmatter (fm : MusicFrontmatter) (entity : MusicEntityData) :
    MusicFrontmatter :=
  { fm with
    title := coalesce fm.title (some entity.title)
    cover := coalesce fm.cover entity.image
    in_library := coalesce fm.in_library entity.inLibrary
    aliases := coalesce fm.aliases (some [entity.title])
    music_ids := spreadIds fm.music_ids entity.ids
    music_sources := spreadSources fm.music_sources entity.sources }

/-- FrontmatterWriter.hasFrontmatterChanges performs
JSON.stringify(fm) !== JSON.stringify(fmOriginal).  On two documents of this
fixed shape that is structural equality of every field, including created and
modified: the destructured rest objects restFm and restFmOriginal the function
also computes are never used in the comparison. -/
def hasFrontmatterChanges (fm fmOriginal : MusicFrontmatter) : Bool :=
  decide (¬ fm = fmOriginal)

/-- The comparison the destructuring inside hasFrontmatterChanges sets up but
never uses: equality of the two documents with the volatile created and
modified fields removed. -/
def restEq (fm fmOriginal : MusicFrontmatter) : Bool :=
  decide
    ({ fm with created := none, modified := none } =
      { fmOriginal with created := none, modified := none })

/-- JavaScript falsiness of a value of type string or undefined: true for
undefined and for the empty string. -/
def jsFalsyStr : Option String → Bool
  | none => true
  | some s => s = ""

/-- Lexicographic comparison of character lists. -/
def charListLt : List Char → List Char → Bool
  | [], [] => false
  | [], _ :: _ => true
  | _ :: _, [] => false
  | a :: as, b :: bs =>
    if a < b then true
    else if b < a then false
    else charListLt as bs

/-- The JavaScript string comparison newCreatedDate < fm.created: lexicographic
over the code units of the two strings. -/
def strLtJs (a b : String) : Bool :=
  charListLt a.data b.data

/-- FrontmatterWriter.finalizeFrontmatter: pull the created date back to the
earliest known date, bump modified exactly when hasFrontmatterChanges reports
a difference, overlay the user default frontmatter on new files, and assign
the result onto the live document.  The current date and the parsed user
default record are passed in explicitly. -/
def finalizeFrontmatter (fmOriginal fm0 : MusicFrontmatter) (addedAt : Option String)
    (today : String) (applyDefaults : MusicFrontmatter → MusicFrontmatter) :
    MusicFrontmatter :=
  let newCreatedDate := match addedAt with
    | some d => d
    | none => today
  let fm1 :=
    if jsFalsyStr fm0.created || strLtJs newCreatedDate (fm0.created.getD "") then
      { fm0 with created := some newCreatedDate }
    else fm0
  let fm2 :=
    if hasFrontmatterChanges fm1 fmOriginal then
      { fm1 with modified := some today }
    else fm1
  let isNew := jsFalsyStr fmOriginal.created
  if isNew then applyDefaults fm2 else fm2

/-- FrontmatterWriter.updateArtistFrontmatter: copy the live document into the
class shape, run the common update, then finalize against the original. -/
def updateArtistFrontmatter (fmOriginal : MusicFrontmatter) (artist : MusicEntityData)
    (today : String) (applyDefaults : MusicFrontmatter → MusicFrontmatter) :
    MusicFrontmatter :=
  let fm := updateCommonFrontmatter fmOriginal artist
  finalizeFrontmatter fmOriginal fm artist.addedAt today applyDefaults

/-- A normalized simplified artist reference (src/sync/types.ts). -/
structure SimplifiedArtist where
  title : String
  ids : MusicIds
deriving DecidableEq

/-- A normalized simplified album reference (src/sync/types.ts). -/
structure SimplifiedAlbum where
  title : String
  artists : List SimplifiedArtist
  ids : MusicIds
deriving DecidableEq

/-- A normalized simplified track reference (src/sync/types.ts). -/
structure SimplifiedTrack where
  title : String
  ids : MusicIds
deriving DecidableEq

/-- A normalized Track entity (src/sync/types.ts): the common entity fields
plus artists and the album reference, which is a SimplifiedAlbum, explicitly
null for singles (some none) or undefined when unknown (none). -/
structure Track where
  title : String
  image : Option String := none
  ids : MusicIds := {}
  artists : List SimplifiedArtist := []
  album : Option (Option SimplifiedAlbum) := none
  addedAt : Option String := none
  sources : MusicSources := {}
deriving DecidableEq

/-- A normalized Album entity (src/sync/types.ts). -/
structure Album where
  title : String
  image : Option String := none
  ids : MusicIds := {}
  artists : List SimplifiedArtist := []
  tracks : List SimplifiedTrack := []
  addedAt : Option String := none
  sources : MusicSources := {}
deriving DecidableEq

/-- A cover art image of the Spotify SDK. -/
structure SpotifyImage where
  url : String
  width : Int
  height : Int
deriving DecidableEq

/-- A simplified artist object of the Spotify SDK. -/
structure SpotifySimplifiedArtist where
  name : String
  id : String
  uri : String
deriving DecidableEq

/-- A simplified track object of the Spotify SDK. -/
structure SpotifySimplifiedTrack where
  name : String
  id : String
  uri : String
deriving DecidableEq

/-- The album object attached to a Spotify SDK track. -/
structure SpotifyTrackAlbum where
  name : String
  id : String
  uri : String
  total_tracks : Nat
  artists : List SpotifySimplifiedArtist
  images : List SpotifyImage
deriving DecidableEq

/-- A full track object of the Spotify SDK. -/
structure SpotifyTrack where
  name : String
  id : String
  uri : String
  href : String
  artists : List SpotifySimplifiedArtist
  album : SpotifyTrackAlbum
deriving DecidableEq

/-- A full album object of the Spotify SDK, with its embedded track page. -/
structure SpotifyAlbum where
  name : String
  id : String
  uri : String
  href : String
  total_tracks : Nat
  artists : List SpotifySimplifiedArtist
  tracks : List SpotifySimplifiedTrack
  images : List SpotifyImage
deriving DecidableEq

/-- A saved-albums entry of the Spotify SDK: the album plus the date it was
saved. -/
structure SpotifySavedAlbum where
  album : SpotifyAlbum
  added_at : String
deriving DecidableEq

/-- SpotifyUtils.getSpotifyIds: the identifier record {spotify_id, spotify_uri}
built from the id and uri of a Spotify item. -/
def getSpotifyIds (id uri : String) : MusicIds where
  spotify_id := some (some id)
  spotify_uri := some (some uri)

/-- SpotifyUtils.getBestImageUrl: undefined for an empty image list, otherwise
the url of the image whose width is closest to the target size, found by a
left reduce. -/
def getBestImageUrl (images : List SpotifyImage) (targetSize : Int) : Option String :=
  match images with
  | [] => none
  | first :: rest =>
    some ((rest.foldl
      (fun best current =>
        if (current.width - targetSize).natAbs < (best.width - targetSize).natAbs
        then current else best)
      first).url)

/-- SpotifyUtils.isSingle on a track album object: exactly one track. -/
def isSingleTrackAlbum (album : SpotifyTrackAlbum) : Bool :=
  album.total_tracks = 1

/-- SpotifyUtils.isSingle on a full album object: exactly one track. -/
def isSingle (album : SpotifyAlbum) : Bool :=
  album.total_tracks = 1

/-- SpotifyLibrarySource.toSimplifiedArtist. -/
def toSimplifiedArtist (spotifyArtist : SpotifySimplifiedArtist) : SimplifiedArtist where
  title := spotifyArtist.name
  ids := getSpotifyIds spotifyArtist.id spotifyArtist.uri

/-- SpotifyLibrarySource.toSimplifiedTrack. -/
def toSimplifiedTrack (spotifyTrack : SpotifySimplifiedTrack) : SimplifiedTrack where
  title := spotifyTrack.name
  ids := getSpotifyIds spotifyTrack.id spotifyTrack.uri

/-- SpotifyLibrarySource.toTrack: normalize a Spotify track.  The album
reference is explicitly null when the source album has exactly one track.
The ids field is computed, as in the source, from item.album. -/
def toTrack (item : SpotifyTrack) (addedAt : Option String) : Track :=
  let artists := item.artists.map toSimplifiedArtist
  let spotifyAlbum := item.album
  let album : Option (Option SimplifiedAlbum) :=
    if spotifyAlbum.total_tracks = 1 then
      some none
    else
      some (some
        { title := spotifyAlbum.name
          artists := spotifyAlbum.artists.map toSimplifiedArtist
          ids := getSpotifyIds spotifyAlbum.id spotifyAlbum.uri })
  { title := item.name
    image := getBestImageUrl item.album.images 300
    ids := getSpotifyIds item.album.id item.album.uri
    artists := artists
    album := album
    addedAt := addedAt
    sources := { spotify := some (some item.href) } }

/-- SpotifyLibrarySource.toAlbum: normalize a Spotify album. -/
def toAlbum (item : SpotifyAlbum) (addedAt : Option String) : Album where
  title := item.name
  image := getBestImageUrl item.images 300
  ids := getSpotifyIds item.id item.uri
  artists := item.artists.map toSimplifiedArtist
  tracks := item.tracks.map toSimplifiedTrack
  addedAt := addedAt
  sources := { spotify := some (some item.href) }

/-- SpotifyLibrarySource.getSavedAlbums: filter single-track releases out of
the fetched saved list, then normalize.  The paginated fetch itself is
abstracted to its result list. -/
def getSavedAlbums (savedAlbumsAndSingles : List SpotifySavedAlbum) : List Album :=
  let savedAlbums := savedAlbumsAndSingles.filter (fun item => ! isSingle item.album)
  savedAlbums.map (fun item => toAlbum item.album (some item.added_at))

/-- The JavaScript Array.slice with a possibly negative start index, as used
by generateEntityLink when the base path has no segments. -/
def jsSliceFrom {α : Type} (l : List α) (j : Int) : List α :=
  if j < 0 then l.drop (l.length - (-j).toNat) else l.drop j.toNat

/-- The relative path computation of FileManager.generateEntityLink: split the
note path on slashes, keep everything from the leaf segment of the catalog
base path onwards, rejoin, and strip a trailing .md. -/
def relativePath (basePath path : String) : String :=
  let pathParts := path.splitOn "/"
  let basePathParts := (basePath.splitOn "/").filter (fun s => ! (s == ""))
  let joined := String.intercalate "/" (jsSliceFrom pathParts ((basePathParts.length : Int) - 1))
  if joined.endsWith ".md" then joined.dropRight 3 else joined

/-- FileManager.generateEntityLink: the plain display title when the target
note is missing, otherwise a wiki link to the relative path aliased by the
display title. -/
def generateEntityLink (basePath : String) (musicFile : Option MusicFileD)
    (displayTitle : String) : String :=
  match musicFile with
  | none => displayTitle
  | some f => "[[" ++ relativePath basePath f.path ++ "|" ++ displayTitle ++ "]]"

/-- FileManager.generateAlbumLink: resolve the simplified album against the
album index and render the entity link. -/
def generateAlbumLink (basePath : String) (albumIndex : MusicIdIndex MusicFileD)
    (album : SimplifiedAlbum) : String :=
  generateEntityLink basePath (albumIndex.get album.ids) album.title

/-- The fm.album assignment of FrontmatterWriter.updateTrackFrontmatter:
track.album && generateAlbumLink(track.album), so undefined stays undefined,
null stays null, and a real reference becomes the generated link string. -/
def trackAlbumFmField (basePath : String) (albumIndex : MusicIdIndex MusicFileD)
    (track : Track) : Option (Option String) :=
  match track.album with
  | none => none
  | some none => some none
  | some (some alb) => some (some (generateAlbumLink basePath albumIndex alb))

/-- The effect of the album tier on the cached album index: every created or
updated album file is registered through FileManager.updateAlbumFile, which
calls index.set(album.ids, album). -/
def registerCreatedAlbums (idx : MusicIdIndex MusicFileD)
    (newAlbums : List MusicFileD) : MusicIdIndex MusicFileD :=
  newAlbums.foldl (fun i f => i.set (fileIds f) f) idx

/-- The object spread of an enrichment result over an input entity.  Every
field of the result objects built by the library source is an own key except
inLibrary, which no constructor in the code assigns, so the spread keeps the
original inLibrary and takes every other field from the result. -/
def spreadEntity (item enriched : MusicEntityData) : MusicEntityData :=
  { enriched with inLibrary := item.inLibrary }

/-- MusicMetadataEnricher.enrichItemsFromMusicLibrarySource: collect the
primary identifiers of the batch, return the batch unchanged when none exists,
otherwise re-fetch by identifier, index the results, and map every input item
to its index match spread over it, or to itself when nothing matches.  The
dynamically dispatched getPrimaryId of the library source and the batch
re-fetch call are passed in as functions. -/
def enrichItemsFromMusicLibrarySource (getPrimaryId : MusicIds → Option String)
    (fetchEnrichedData : List String → List MusicEntityData)
    (items : List MusicEntityData) : List MusicEntityData :=
  let ids := (items.map (fun item => getPrimaryId item.ids)).filterMap (fun x => x)
  if ids.isEmpty then items
  else
    let enrichedData := fetchEnrichedData ids
    let enrichedDataIndex := MusicIdIndex.ofItems enrichedData MusicEntityData.ids
    items.map (fun item =>
      match enrichedDataIndex.get item.ids with
      | some enriched => spreadEntity item enriched
      | none => item)

/-- The write of entity.sources.in_library performed by the sync engine. -/
def setSourcesInLibrary (e : MusicEntityData) (b : Bool) : MusicEntityData :=
  { e with sources := { e.sources with in_library := some (some b) } }

/-- SyncEngine.freshenFiles over one tier: take the files registered in the
tier index, enrich the bare entities, and for every file whose enriched form
differs from its current form (entitiesAreEqual, a deep structural comparison
excluding the file handle) write the merged file back, which also registers it
in the cached tier index.  Returns the freshened files and the updated
index. -/
def freshenTier (enrich : List MusicEntityData → List MusicEntityData)
    (idx : MusicIdIndex MusicFileD) : List MusicFileD × MusicIdIndex MusicFileD :=
  let files := idx.values
  let musicEntities := files.map MusicFileD.ent
  let enrichedEntities := enrich musicEntities
  files.enum.foldl
    (fun acc p =>
      match enrichedEntities[p.1]? with
      | some enriched =>
        if p.2.ent = enriched then (acc.1 ++ [p.2], acc.2)
        else
          let enrichedFile : MusicFileD := { p.2 with ent := enriched }
          (acc.1 ++ [enrichedFile], acc.2.set (fileIds enrichedFile) enrichedFile)
      | none => (acc.1 ++ [p.2], acc.2))
    ([], idx)

/-- SyncEngine.ingestNewEntities: filter the fetched entities down to those
not represented in the existing file index, enrich them, mark each as in the
library, and create one note per entity.  Note creation is abstracted to the
path the file manager chooses for the entity. -/
def ingestNewEntities (existingFileIndex : MusicIdIndex MusicFileD)
    (enrich : List MusicEntityData → List MusicEntityData)
    (mkPath : MusicEntityData → String)
    (savedEntities : List MusicEntityData) : List MusicFileD :=
  let newEntities := savedEntities.filter (fun e => ! existingFileIndex.has e.ids)
  let enrichedEntities := enrich newEntities
  enrichedEntities.map (fun e => { path := mkPath e, ent := setSourcesInLibrary e true })

/-- SyncEngine.updateLibraryStatus: index the freshly fetched saved entities
and set each given file field music_sources.in_library to whether its identifiers
match the index. -/
def updateLibraryStatus (savedEntities : List MusicEntityData)
    (files : List MusicFileD) : List MusicFileD :=
  let savedEntitiesIndex := MusicIdIndex.ofItems savedEntities MusicEntityData.ids
  files.map (fun f =>
    { f with ent := setSourcesInLibrary f.ent (savedEntitiesIndex.has (fileIds f)) })

/-- The notes present in the vault, one list per tier. -/
structure SyncState where
  artists : List MusicFileD := []
  albums : List MusicFileD := []
  tracks : List MusicFileD := []
deriving DecidableEq

/-- The outcomes of the three per-category library source fetches of one
pass: each either a list of normalized entities or a thrown error. -/
structure SyncFetched where
  artists : Except String (List MusicEntityData)
  albums : Except String (List MusicEntityData)
  tracks : Except String (List MusicEntityData)

/-- The per-category enrichment stages the engine is constructed with. -/
structure SyncEnrichers where
  artists : List MusicEntityData → List MusicEntityData
  albums : List MusicEntityData → List MusicEntityData
  tracks : List MusicEntityData → List MusicEntityData

/-- The per-category note naming performed by the file manager on creation. -/
structure SyncNaming where
  artists : MusicEntityData → String
  albums : MusicEntityData → String
  tracks : MusicEntityData → String

/-- SyncEngine.fullSync.  The body is one try block: freshen the three tiers,
fetch the three saved collections, ingest the new entities of each tier, then
recompute the library status of the pre-existing files of each tier.  All
three fetches precede every ingest, so a thrown fetch error reaches the
top-level catch before any ingestion: the pass ends with only the freshen
writes applied and reports failure.  Matching on the three fetch results at
once is equivalent to the sequential awaits because the fetches do not touch
the vault. -/
def fullSync (enr : SyncEnrichers) (nm : SyncNaming) (st : SyncState)
    (fetched : SyncFetched) : SyncState × Bool :=
  let fa := freshenTier enr.artists (MusicIdIndex.ofItems st.artists fileIds)
  let fb := freshenTier enr.albums (MusicIdIndex.ofItems st.albums fileIds)
  let fc := freshenTier enr.tracks (MusicIdIndex.ofItems st.tracks fileIds)
  match fetched.artists, fetched.albums, fetched.tracks with
  | Except.ok savedArtists, Except.ok savedAlbums, Except.ok savedTracks =>
    let newArtists := ingestNewEntities fa.2 enr.artists nm.artists savedArtists
    let newAlbums := ingestNewEntities fb.2 enr.albums nm.albums savedAlbums
    let newTracks := ingestNewEntities fc.2 enr.tracks nm.tracks savedTracks
    ({ artists := updateLibraryStatus savedArtists fa.1 ++ newArtists
       albums := updateLibraryStatus savedAlbums fb.1 ++ newAlbums
       tracks := updateLibraryStatus savedTracks fc.1 ++ newTracks }, true)
  | _, _, _ =>
    ({ artists := fa.1, albums := fb.1, tracks := fc.1 }, false)

/-- SyncEngine.incrementalSync: no freshening and no library status update,
only ingestion of not-yet-represented recently saved entities; a thrown fetch
error reaches the top-level catch before any ingestion. -/
def incrementalSync (enr : SyncEnrichers) (nm : SyncNaming) (st : SyncState)
    (fetched : SyncFetched) : SyncState × Bool :=
  match fetched.artists, fetched.albums, fetched.tracks with
  | Except.ok savedArtists, Except.ok savedAlbums, Except.ok savedTracks =>
    let newArtists :=
      ingestNewEntities (MusicIdIndex.ofItems st.artists fileIds) enr.artists nm.artists savedArtists
    let newAlbums :=
      ingestNewEntities (MusicIdIndex.ofItems st.albums fileIds) enr.albums nm.albums savedAlbums
    let newTracks :=
      ingestNewEntities (MusicIdIndex.ofItems st.tracks fileIds) enr.tracks nm.tracks savedTracks
    ({ artists := st.artists ++ newArtists
       albums := st.albums ++ newAlbums
       tracks := st.tracks ++ newTracks }, true)
  | _, _, _ => (st, false)

/-- Structural description of the decimal digit list underlying Nat.repr,
which renders the numeric suffix counter of the collision loop. -/
def natDigits (n : Nat) : List Char :=
  if n < 10 then [Nat.digitChar n]
  else natDigits (n / 10) ++ [Nat.digitChar (n % 10)]
  termination_by n
  decreasing_by
    exact Nat.div_lt_self (by omega) (by decide)

/-- The candidate file names the collision loop of FileManager.createFile
tries: the computed name first, then the name with numeric suffixes. -/
def candidateName (fileName : String) : Nat → String
  | 0 => fileName
  | k + 1 => fileName ++ " (" ++ Nat.repr (k + 1) ++ ")"

/-- The vault path of a note with the given final name in the given folder. -/
def notePath (folderPath finalName : String) : String :=
  folderPath ++ "/" ++ finalName ++ ".md"

/-- The while loop of FileManager.createFile: starting from suffix index k,
return the first candidate name whose vault path does not exist yet; the fuel
argument bounds the iteration count of the embedded loop. -/
def createFileLoop (vault : List String) (folderPath fileName : String) :
    Nat → Nat → Option String
  | 0, _ => none
  | fuel + 1, k =>
    let finalName := candidateName fileName k
    if notePath folderPath finalName ∈ vault then
      createFileLoop vault folderPath fileName fuel (k + 1)
    else some finalName

/-- FileManager.createFile: run the collision loop from the computed name.
One more iteration than there are files in the vault always suffices. -/
def createFile (vault : List String) (folderPath fileName : String) : Option String :=
  createFileLoop vault folderPath fileName (vault.length + 1) 0

/-- The candidate path for suffix index k does not exist in the vault. -/
def freeAt (vault : List String) (folderPath fileName : String) (k : Nat) : Prop :=
  notePath folderPath (candidateName fileName k) ∉ vault

/-- The shared album object of the two C10 witness tracks. -/
def c10Album : SpotifyTrackAlbum :=
  { name := "LP", id := "alb", uri := "spotify:album:alb",
    total_tracks := 9, artists := [], images := [] }

/-- The first C10 witness track. -/
def c10TrackOne : SpotifyTrack :=
  { name := "Song One", id := "t1", uri := "spotify:track:t1", href := "h1",
    artists := [], album := c10Album }

/-- The second, distinct C10 witness track on the same album. -/
def c10TrackTwo : SpotifyTrack :=
  { name := "Song Two", id := "t2", uri := "spotify:track:t2", href := "h2",
    artists := [], album := c10Album }

/-- The saved single-track release of the C7 witness. -/
def c7SavedSingle : SpotifySavedAlbum :=
  { album := { name := "One Song", id := "s1", uri := "spotify:album:s1",
               href := "hs", total_tracks := 1, artists := [], tracks := [],
               images := [] },
    added_at := "2024-02-02" }

/-- The track of the single-track release of the C7 witness. -/
def c7SingleTrack : SpotifyTrack :=
  { name := "One Song", id := "t9", uri := "spotify:track:t9", href := "h9",
    artists := [],
    album := { name := "One Song", id := "s1", uri := "spotify:album:s1",
               total_tracks := 1, artists := [], images := [] } }

/-- The stored frontmatter of the C1 counterexample: the spotify_uri kind is
already set. -/
def c1Stored : MusicFrontmatter :=
  { music_ids := { spotify_uri := some (some "spotify:album:AAA") } }

/-- The incoming entity of the C1 counterexample: it carries a different value
for the already-stored spotify_uri kind. -/
def c1Incoming : MusicEntityData :=
  { title := "Album X", ids := { spotify_uri := some (some "spotify:album:BBB") } }

/-- The stored document of the C3 evaluation: a note previously written by the
plugin, with created and modified set. -/
def c3Original : MusicFrontmatter :=
  { created := some "2024-01-01", modified := some "2024-01-01",
    title := some "Artist X", aliases := some ["Artist X"],
    music_ids := { spotify_uri := some (some "spotify:artist:X") } }

/-- The re-synced artist entity of the C3 evaluation: identical stored fields,
with a remotely recorded save date earlier than the stored created date. -/
def c3Artist : MusicEntityData :=
  { title := "Artist X",
    ids := { spotify_uri := some (some "spotify:artist:X") },
    addedAt := some "2023-05-05" }

/-- Identity enrichment stages, used by the concrete pass instances. -/
def idEnrichers : SyncEnrichers :=
  { artists := fun l => l, albums := fun l => l, tracks := fun l => l }

/-- Title-based note naming, used by the concrete pass instances. -/
def titleNaming : SyncNaming :=
  { artists := fun e => e.title, albums := fun e => e.title, tracks := fun e => e.title }

/-- The new album of the C2 counterexample. -/
def c2Album : MusicEntityData :=
  { title := "New Album", ids := { spotify_uri := some (some "spotify:album:new") } }

/-- The fetch outcomes of the C2 counterexample: the artists category throws,
the albums category succeeds with one new album, the tracks category succeeds
empty. -/
def c2Fetched : SyncFetched :=
  { artists := Except.error "network error"
    albums := Except.ok [c2Album]
    tracks := Except.ok [] }

/-- The library status a successful full pass writes onto a freshened file:
whether its identifiers match the freshly fetched saved collection. -/
def statusAgainst (saved : List MusicEntityData) (f : MusicFileD) : MusicFileD :=
  let flag := (MusicIdIndex.ofItems saved MusicEntityData.ids).has (fileIds f)
  { f with ent := setSourcesInLibrary f.ent flag }

/-- The pre-existing album note of the C5 witness, absent from the fetch. -/
def c5Note : MusicFileD :=
  { path := "Music/Albums/Old.md",
    ent := { title := "Old", ids := { spotify_uri := some (some "spotify:album:old") } } }

/-- The C5 witness vault: one album note. -/
def c5State : SyncState :=
  { albums := [c5Note] }

/-- The C5 witness fetch outcomes: all categories succeed and are empty. -/
def c5Fetched : SyncFetched :=
  { artists := Except.ok [], albums := Except.ok [], tracks := Except.ok [] }

/-- Whether the identifier record carries kind k with exactly the non-empty
value v, so that MusicIdIndex.set would register a binding (v, item). -/
def bindsKV (ids : MusicIds) (k : IdKind) (v : String) : Bool :=
  match ids.read k with
  | none => false
  | some w => if w = "" then false else decide (w = v)

/-- The album reference of the C6 track. -/
def c6SimpAlbum : SimplifiedAlbum :=
  { title := "Great Album", artists := [],
    ids := { spotify_uri := some (some "spotify:album:g") } }

/-- The C6 track: a track on a multi-track album. -/
def c6Track : Track :=
  { title := "My Song", album := some (some c6SimpAlbum) }

/-- The album note created during the album tier of the C6 witness pass. -/
def c6AlbumFile : MusicFileD :=
  { path := "Music/Albums/Great Album.md",
    ent := { title := "Great Album",
             ids := { spotify_uri := some (some "spotify:album:g") } } }

/-- Whether two identifier records carry the same non-empty value for kind k,
so that one record would be found in an index under a binding registered by
the other. -/
def sharesBinding (a b : MusicIds) (k : IdKind) : Bool :=
  match a.read k, b.read k with
  | some x, some y => if x = "" then false else decide (x = y)
  | _, _ => false

/-- Modelled from the spec: the getPrimaryId operation of the library source,
whose Spotify implementation is not part of src (only the abstract declaration
on MusicLibrarySource and its callers are).  The batch re-fetch endpoints take
the service numeric ID, so the primary identifier of a record is its
spotify_id. -/
def spotifyGetPrimaryId (ids : MusicIds) : Option String :=
  ids.read IdKind.spotify_id

/-- The first C8 item: a note carrying both spotify ids. -/
def c8ItemA : MusicEntityData :=
  { title := "Album A",
    ids := { spotify_id := some (some "1"),
             spotify_uri := some (some "spotify:album:1") } }

/-- The second C8 item: a duplicate note for the same album that carries only
the uri, so getPrimaryId yields no identifier for it. -/
def c8ItemB : MusicEntityData :=
  { title := "Stale Title",
    ids := { spotify_uri := some (some "spotify:album:1") } }

/-- The batch re-fetch of the C8 counterexample: the full record of the album
requested through the primary identifier of the first item. -/
def c8Fetch (_idList : List String) : List MusicEntityData :=
  [{ title := "Enriched Title",
     ids := { spotify_id := some (some "1"),
              spotify_uri := some (some "spotify:album:1") },
     image := some "http://img" }]

/-- The first re-fetched record of the C8 witness batch. -/
def c8RecX : MusicEntityData :=
  { title := "Full A",
    ids := { spotify_id := some (some "1"),
             spotify_uri := some (some "spotify:album:1") } }

/-- The second re-fetched record of the C8 witness batch, with disjoint
identifiers. -/
def c8RecY : MusicEntityData :=
  { title := "Full B",
    ids := { spotify_id := some (some "2"),
             spotify_uri := some (some "spotify:album:2") } }

/-- A re-fetch returning the C8 witness batch in request order. -/
def c8FetchOrdered (_idList : List String) : List MusicEntityData :=
  [c8RecX, c8RecY]

/-- The same re-fetch returning the batch in the opposite order. -/
def c8FetchSwapped (_idList : List String) : List MusicEntityData :=
  [c8RecY, c8RecX]

/-- The scan of get over any kind list agrees with a find-first-matching-kind
description followed by the lookup for that kind. -/
theorem getFrom_eq_find {T : Type} (idx : MusicIdIndex T) (ids : MusicIds) :
    ∀ ks : List IdKind,
      idx.getFrom ids ks =
        match ks.find? (hasKind idx ids) with
        | some k => assocGet (idx.mapFor k) ((ids.read k).getD "")
        | none => none := by
  intro ks
  induction ks with
  | nil => rfl
  | cons k rest ih =>
    rw [MusicIdIndex.getFrom, List.find?]
    cases hread : ids.read k with
    | none =>
      have hk : hasKind idx ids k = false := by
        simp [hasKind, hread]
      rw [hk, ih]
    | some v =>
      by_cases hv : v = ""
      · have hk : hasKind idx ids k = false := by
          simp [hasKind, hread, hv]
        rw [hk, ih]
        simp [hv]
      · cases hget : assocGet (idx.mapFor k) v with
        | some item =>
          have hk : hasKind idx ids k = true := by
            simp [hasKind, hread, hv, hget]
          rw [hk]
          simp [hv, hread, hget]
        | none =>
          have hk : hasKind idx ids k = false := by
            simp [hasKind, hread, hv, hget]
          rw [hk, ih]
          simp [hv, hget]

theorem natDigits_eq (n : Nat) :
    natDigits n =
      if n < 10 then [Nat.digitChar n]
      else natDigits (n / 10) ++ [Nat.digitChar (n % 10)] := by
  rw [natDigits]

theorem natDigits_ne_nil (n : Nat) : natDigits n ≠ [] := by
  rw [natDigits_eq]
  split
  · simp
  · simp

theorem toDigitsCore_eq_natDigits :
    ∀ (f n : Nat) (l : List Char), n < f →
      Nat.toDigitsCore 10 f n l = natDigits n ++ l := by
  intro f
  induction f with
  | zero => intro n l h; omega
  | succ f ih =>
    intro n l h
    by_cases h10 : n < 10
    · have hdiv : n / 10 = 0 := Nat.div_eq_of_lt h10
      have hmod : n % 10 = n := Nat.mod_eq_of_lt h10
      simp only [Nat.toDigitsCore, hdiv, if_true, hmod]
      rw [natDigits_eq n, if_pos h10]
      rfl
    · have hge : 1 ≤ n / 10 := (Nat.one_le_div_iff (by decide)).mpr (by omega)
      have hdiv : ¬ n / 10 = 0 := by omega
      have hlt : n / 10 < n := Nat.div_lt_self (by omega) (by decide)
      simp only [Nat.toDigitsCore, hdiv, if_false]
      rw [ih (n / 10) _ (by omega)]
      rw [natDigits_eq n, if_neg h10]
      simp [List.append_assoc]

theorem repr_eq_natDigits (n : Nat) : Nat.repr n = (natDigits n).asString := by
  show (Nat.toDigits 10 n).asString = _
  rw [Nat.toDigits, toDigitsCore_eq_natDigits (n + 1) n [] (Nat.lt_succ_self n),
    List.append_nil]

theorem digitChar_inj_lt :
    ∀ a < 10, ∀ b < 10, Nat.digitChar a = Nat.digitChar b → a = b := by decide

theorem natDigits_inj : ∀ m n : Nat, natDigits m = natDigits n → m = n := by
  intro m
  induction m using Nat.strong_induction_on with
  | _ m ih =>
    intro n h
    by_cases hm : m < 10
    · by_cases hn : n < 10
      · rw [natDigits_eq m, if_pos hm, natDigits_eq n, if_pos hn] at h
        exact digitChar_inj_lt m hm n hn (List.cons.inj h).1
      · exfalso
        rw [natDigits_eq m, if_pos hm, natDigits_eq n, if_neg hn] at h
        have hlen := congrArg List.length h
        rw [List.length_append] at hlen
        simp only [List.length_singleton] at hlen
        have hzero : (natDigits (n / 10)).length = 0 := by omega
        exact natDigits_ne_nil (n / 10) (List.length_eq_zero.mp hzero)
    · by_cases hn : n < 10
      · exfalso
        rw [natDigits_eq m, if_neg hm, natDigits_eq n, if_pos hn] at h
        have hlen := congrArg List.length h
        rw [List.length_append] at hlen
        simp only [List.length_singleton] at hlen
        have hzero : (natDigits (m / 10)).length = 0 := by omega
        exact natDigits_ne_nil (m / 10) (List.length_eq_zero.mp hzero)
      · rw [natDigits_eq m, if_neg hm, natDigits_eq n, if_neg hn] at h
        have hrev := congrArg List.reverse h
        simp only [List.reverse_append, List.reverse_cons, List.reverse_nil,
          List.nil_append, List.singleton_append] at hrev
        have hmod : Nat.digitChar (m % 10) = Nat.digitChar (n % 10) :=
          (List.cons.inj hrev).1
        have htail : natDigits (m / 10) = natDigits (n / 10) := by
          have := (List.cons.inj hrev).2
          have := congrArg List.reverse this
          simpa using this
        have hdiv : m / 10 = n / 10 :=
          ih (m / 10) (Nat.div_lt_self (by omega) (by decide)) (n / 10) htail
        have hmq : m % 10 = n % 10 :=
          digitChar_inj_lt (m % 10) (Nat.mod_lt m (by decide)) (n % 10)
            (Nat.mod_lt n (by decide)) hmod
        have h1 := Nat.div_add_mod m 10
        have h2 := Nat.div_add_mod n 10
        omega

theorem stringDataAppend (s t : String) : (s ++ t).data = s.data ++ t.data := by
  cases s
  cases t
  rfl

theorem stringEqOfData {s t : String} (h : s.data = t.data) : s = t := by
  cases s
  cases t
  exact congrArg String.mk h

theorem reprInj {m n : Nat} (h : Nat.repr m = Nat.repr n) : m = n := by
  rw [repr_eq_natDigits, repr_eq_natDigits] at h
  exact natDigits_inj m n (congrArg String.data h)

theorem candidateName_inj (fileName : String) :
    Function.Injective (candidateName fileName) := by
  intro a b h
  match a, b with
  | 0, 0 => rfl
  | 0, k + 1 =>
    exfalso
    have hlen := congrArg String.length h
    simp only [candidateName, String.length_append] at hlen
    have hp : (" (" : String).length = 2 := by decide
    have hq : (")" : String).length = 1 := by decide
    omega
  | j + 1, 0 =>
    exfalso
    have hlen := congrArg String.length h
    simp only [candidateName, String.length_append] at hlen
    have hp : (" (" : String).length = 2 := by decide
    have hq : (")" : String).length = 1 := by decide
    omega
  | j + 1, k + 1 =>
    have hd := congrArg String.data h
    simp only [candidateName, stringDataAppend] at hd
    have hd2 := List.append_cancel_right hd
    have hd3 := List.append_cancel_left hd2
    have : (j : Nat) + 1 = k + 1 := reprInj (stringEqOfData hd3)
    omega

theorem notePath_inj (folderPath : String) {a b : String}
    (h : notePath folderPath a = notePath folderPath b) : a = b := by
  have hd := congrArg String.data h
  simp only [notePath, stringDataAppend] at hd
  have hd2 := List.append_cancel_right hd
  have hd3 := List.append_cancel_left hd2
  exact stringEqOfData hd3

theorem createFileLoop_spec (vault : List String) (folderPath fileName : String) :
    ∀ (fuel k : Nat), (∃ i, i < fuel ∧ freeAt vault folderPath fileName (k + i)) →
    ∃ i, i < fuel ∧ freeAt vault folderPath fileName (k + i) ∧
      (∀ j, j < i → ¬ freeAt vault folderPath fileName (k + j)) ∧
      createFileLoop vault folderPath fileName fuel k =
        some (candidateName fileName (k + i)) := by
  intro fuel
  induction fuel with
  | zero =>
    intro k h
    obtain ⟨i, hi, _⟩ := h
    omega
  | succ fuel ih =>
    intro k h
    by_cases hk : notePath folderPath (candidateName fileName k) ∈ vault
    · obtain ⟨i, hi, hfree⟩ := h
      have hine : i ≠ 0 := by
        intro h0
        subst h0
        exact hfree hk
      obtain ⟨i1, rfl⟩ : ∃ i1, i = i1 + 1 := ⟨i - 1, by omega⟩
      have hshift : k + (i1 + 1) = (k + 1) + i1 := by omega
      have hrec := ih (k + 1) ⟨i1, by omega, by rw [← hshift]; exact hfree⟩
      obtain ⟨i2, hi2, hfree2, hmin2, heq2⟩ := hrec
      have hshift2 : (k + 1) + i2 = k + (i2 + 1) := by omega
      refine ⟨i2 + 1, by omega, ?_, ?_, ?_⟩
      · rw [hshift2] at hfree2
        exact hfree2
      · intro j hj
        match j with
        | 0 =>
          intro hcon
          exact hcon hk
        | j1 + 1 =>
          have hshift3 : k + (j1 + 1) = (k + 1) + j1 := by omega
          rw [hshift3]
          exact hmin2 j1 (by omega)
      · rw [createFileLoop]
        simp only [hk, if_true]
        rw [heq2, hshift2]
    · refine ⟨0, by omega, ?_, ?_, ?_⟩
      · simpa [freeAt] using hk
      · intro j hj
        omega
      · rw [createFileLoop]
        simp [hk]

theorem exists_free (vault : List String) (folderPath fileName : String) :
    ∃ i, i < vault.length + 1 ∧ freeAt vault folderPath fileName i := by
  by_contra hall
  push_neg at hall
  have hsub : ((List.range (vault.length + 1)).map
      (fun i => notePath folderPath (candidateName fileName i))) ⊆ vault := by
    intro x hx
    simp only [List.mem_map, List.mem_range] at hx
    obtain ⟨i, hi, rfl⟩ := hx
    have hni := hall i hi
    simpa [freeAt] using hni
  have hinj : Function.Injective
      (fun i => notePath folderPath (candidateName fileName i)) := by
    intro a b hab
    exact candidateName_inj fileName (notePath_inj folderPath hab)
  have hnodup := (List.nodup_range (vault.length + 1)).map hinj
  have hle := (hnodup.subperm hsub).length_le
  simp at hle

theorem mapFor_withMap_eq {T : Type} (idx : MusicIdIndex T) (k : IdKind)
    (m : List (String × T)) : (idx.withMap k m).mapFor k = m := by
  cases k <;> rfl

theorem mapFor_withMap_ne {T : Type} (idx : MusicIdIndex T) {k k' : IdKind}
    (m : List (String × T)) (hne : ¬ k' = k) :
    (idx.withMap k' m).mapFor k = idx.mapFor k := by
  cases k' <;> cases k <;>
    simp_all [MusicIdIndex.withMap, MusicIdIndex.mapFor]

theorem mapFor_items {T : Type} (idx : MusicIdIndex T) (l : List T) (k : IdKind) :
    ({ idx with items := l } : MusicIdIndex T).mapFor k = idx.mapFor k := by
  cases k <;> rfl

theorem mapFor_setKind_eq {T : Type} (ids : MusicIds) (item : T)
    (idx : MusicIdIndex T) (k : IdKind) :
    (setKind ids item idx k).mapFor k =
      match ids.read k with
      | none => idx.mapFor k
      | some v => if v = "" then idx.mapFor k else (v, item) :: idx.mapFor k := by
  rw [setKind]
  cases ids.read k with
  | none => rfl
  | some v =>
    by_cases hv : v = "" <;> simp [hv, mapFor_withMap_eq]

theorem mapFor_setKind_ne {T : Type} (ids : MusicIds) (item : T)
    (idx : MusicIdIndex T) {k k' : IdKind} (hne : ¬ k' = k) :
    (setKind ids item idx k').mapFor k = idx.mapFor k := by
  rw [setKind]
  cases ids.read k' with
  | none => rfl
  | some v =>
    by_cases hv : v = "" <;> simp [hv, mapFor_withMap_ne _ _ hne]

/-- The effect of MusicIdIndex.set on the map of one kind: a new binding is
prepended exactly when the query carries a truthy value for that kind. -/
theorem mapFor_set {T : Type} (idx : MusicIdIndex T) (ids : MusicIds) (item : T)
    (k : IdKind) :
    (idx.set ids item).mapFor k =
      match ids.read k with
      | none => idx.mapFor k
      | some v => if v = "" then idx.mapFor k else (v, item) :: idx.mapFor k := by
  rw [MusicIdIndex.set, priorityOrder]
  simp only [List.foldl_cons, List.foldl_nil]
  cases k with
  | spotify_uri =>
    rw [mapFor_setKind_ne _ _ _ (by decide), mapFor_setKind_ne _ _ _ (by decide),
      mapFor_setKind_ne _ _ _ (by decide), mapFor_setKind_ne _ _ _ (by decide),
      mapFor_setKind_eq, mapFor_items]
  | spotify_id =>
    rw [mapFor_setKind_ne _ _ _ (by decide), mapFor_setKind_ne _ _ _ (by decide),
      mapFor_setKind_ne _ _ _ (by decide), mapFor_setKind_eq,
      mapFor_setKind_ne _ _ _ (by decide), mapFor_items]
  | upc =>
    rw [mapFor_setKind_ne _ _ _ (by decide), mapFor_setKind_ne _ _ _ (by decide),
      mapFor_setKind_eq, mapFor_setKind_ne _ _ _ (by decide),
      mapFor_setKind_ne _ _ _ (by decide), mapFor_items]
  | isrc =>
    rw [mapFor_setKind_ne _ _ _ (by decide), mapFor_setKind_eq,
      mapFor_setKind_ne _ _ _ (by decide), mapFor_setKind_ne _ _ _ (by decide),
      mapFor_setKind_ne _ _ _ (by decide), mapFor_items]
  | mbid =>
    rw [mapFor_setKind_eq, mapFor_setKind_ne _ _ _ (by decide),
      mapFor_setKind_ne _ _ _ (by decide), mapFor_setKind_ne _ _ _ (by decide),
      mapFor_setKind_ne _ _ _ (by decide), mapFor_items]

theorem assocGet_cons {T : Type} (w : String) (it : T) (m : List (String × T))
    (v : String) :
    assocGet ((w, it) :: m) v = if w = v then some it else assocGet m v := by
  by_cases h : w = v
  · rw [assocGet, List.find?_cons_of_pos _ (by simpa using h)]
    simp [h]
  · rw [assocGet, List.find?_cons_of_neg _ (by simpa using h)]
    simp [h, assocGet]

/-- C4: For every query and every index state, MusicIdIndex.get returns the
item registered under the highest-priority identifier kind (priority order
spotify_uri, spotify_id, upc, isrc, mbid) that is present with a non-empty
value in both the query and the index; in particular, when a higher-priority
kind is present in the query but not registered while a lower-priority kind is
registered, the lower-priority match is returned, and when no kind matches the
result is missing. -/
theorem C4_get_highest_priority {T : Type} (idx : MusicIdIndex T) (ids : MusicIds) :
    idx.get ids = idx.getSpec ids := by
  rw [MusicIdIndex.get, MusicIdIndex.getSpec, getFrom_eq_find]

/-- C9: When the computed name of a new note already exists in the target
folder, FileManager.createFile appends the numeric suffixes " (1)", " (2)" and
so on, incrementing until a free name is found, and creates the note under the
first free candidate: the chosen path never overwrites an existing file, every
earlier candidate was occupied, and a note is always created, never
skipped. -/
theorem C9_collision_suffix (vault : List String) (folderPath fileName : String) :
    ∃ k, createFile vault folderPath fileName = some (candidateName fileName k) ∧
      notePath folderPath (candidateName fileName k) ∉ vault ∧
      ∀ j, j < k → notePath folderPath (candidateName fileName j) ∈ vault := by
  obtain ⟨i, hi, hfree⟩ := exists_free vault folderPath fileName
  obtain ⟨i2, hi2, hfree2, hmin2, heq2⟩ :=
    createFileLoop_spec vault folderPath fileName (vault.length + 1) 0
      ⟨i, hi, by simpa using hfree⟩
  refine ⟨i2, ?_, ?_, ?_⟩
  · rw [createFile]
    simpa using heq2
  · simpa [freeAt] using hfree2
  · intro j hj
    have hocc := hmin2 j hj
    simpa [freeAt] using hocc

/-- C10: Every track built by SpotifyLibrarySource.toTrack carries the
identifier record of its album object, not its own: the ids field equals
getSpotifyIds of item.album, two tracks with the same album object carry
identical identifier sets, and registering one track in an identity index
makes the index treat the other as the same entity. -/
theorem C10_track_ids_from_album {T : Type} (t1 t2 : SpotifyTrack)
    (a1 a2 : Option String) (idx : MusicIdIndex T) (item : T)
    (halb : t1.album = t2.album) (huri : ¬ t1.album.uri = "") :
    (toTrack t1 a1).ids = getSpotifyIds t1.album.id t1.album.uri ∧
    (toTrack t1 a1).ids = (toTrack t2 a2).ids ∧
    (idx.set (toTrack t1 a1).ids item).has (toTrack t2 a2).ids = true := by
  refine ⟨rfl, ?_, ?_⟩
  · show getSpotifyIds t1.album.id t1.album.uri = getSpotifyIds t2.album.id t2.album.uri
    rw [halb]
  · show (idx.set (getSpotifyIds t1.album.id t1.album.uri) item).has
      (getSpotifyIds t2.album.id t2.album.uri) = true
    rw [← halb]
    rw [MusicIdIndex.has, priorityOrder]
    rw [List.any_cons, Bool.or_eq_true]
    left
    rw [hasKind]
    have hread : (getSpotifyIds t1.album.id t1.album.uri).read IdKind.spotify_uri
        = some t1.album.uri := rfl
    rw [hread]
    simp only [huri, if_false]
    rw [mapFor_set, hread]
    simp only [huri, if_false]
    rw [assocGet_cons]
    simp

/-- C7: A track belonging to a single-track release never produces a separate
album note and never carries an album field: every album produced by
getSavedAlbums comes from a saved entry whose album has more than one track
(singles are filtered out), and a track whose source album has exactly one
track gets an explicitly null album reference from toTrack, so the album
frontmatter field written for it is null rather than a title or link. -/
theorem C7_single_suppression (savedList : List SpotifySavedAlbum)
    (tr : SpotifyTrack) (a : Option String) (basePath : String)
    (albumIndex : MusicIdIndex MusicFileD)
    (hsingle : tr.album.total_tracks = 1) :
    (∀ alb ∈ getSavedAlbums savedList,
      ∃ item ∈ savedList, ¬ item.album.total_tracks = 1 ∧
        alb = toAlbum item.album (some item.added_at)) ∧
    (toTrack tr a).album = some none ∧
    trackAlbumFmField basePath albumIndex (toTrack tr a) = some none := by
  refine ⟨?_, ?_, ?_⟩
  · intro alb halb
    rw [getSavedAlbums] at halb
    simp only [List.mem_map, List.mem_filter, isSingle, Bool.not_eq_true] at halb
    obtain ⟨entry, ⟨hmem, hnot⟩, rfl⟩ := halb
    refine ⟨entry, hmem, ?_, rfl⟩
    intro hone
    simp [hone] at hnot
  · simp [toTrack, hsingle]
  · simp [trackAlbumFmField, toTrack, hsingle]

/-- Witness for C10 at a concrete pair of distinct tracks on one album. -/
theorem C10_track_ids_from_album_witness :
    (toTrack c10TrackOne (some "2024-01-01")).ids =
      getSpotifyIds c10TrackOne.album.id c10TrackOne.album.uri ∧
    (toTrack c10TrackOne (some "2024-01-01")).ids = (toTrack c10TrackTwo none).ids ∧
    ((({} : MusicIdIndex Nat).set (toTrack c10TrackOne (some "2024-01-01")).ids 0).has
      (toTrack c10TrackTwo none).ids) = true :=
  C10_track_ids_from_album c10TrackOne c10TrackTwo (some "2024-01-01") none {} 0
    rfl (by decide)

/-- Witness for C7 at a concrete single-track release. -/
theorem C7_single_suppression_witness :
    (∀ alb ∈ getSavedAlbums [c7SavedSingle],
      ∃ item ∈ [c7SavedSingle], ¬ item.album.total_tracks = 1 ∧
        alb = toAlbum item.album (some item.added_at)) ∧
    (toTrack c7SingleTrack none).album = some none ∧
    trackAlbumFmField "Music" ({} : MusicIdIndex MusicFileD)
      (toTrack c7SingleTrack none) = some none :=
  C7_single_suppression [c7SavedSingle] c7SingleTrack none "Music" {} rfl

/-- C1 counterexample: the frontmatter merge overwrites an already-stored
spotify_uri with the different incoming value, so an identifier kind stored
with a value is not immutable under enrichment, contrary to the claim. -/
theorem C1_counterexample :
    c1Stored.music_ids.spotify_uri = some (some "spotify:album:AAA") ∧
    c1Incoming.ids.spotify_uri = some (some "spotify:album:BBB") ∧
    (updateCommonFrontmatter c1Stored c1Incoming).music_ids.spotify_uri
      = some (some "spotify:album:BBB") :=
  ⟨rfl, rfl, rfl⟩

/-- C1 amended: the frontmatter merge spreads the incoming identifier record
over the stored one, so a stored identifier kind survives exactly when the
incoming entity does not carry that kind; a kind carried by the incoming
entity takes the incoming value, overwriting or clearing the stored one. -/
theorem C1_amended_ids_merge (fm : MusicFrontmatter) (e : MusicEntityData)
    (k : IdKind) :
    (updateCommonFrontmatter fm e).music_ids.getKey k
      = spreadKey (fm.music_ids.getKey k) (e.ids.getKey k) ∧
    (∀ v, e.ids.getKey k = some v →
      (updateCommonFrontmatter fm e).music_ids.getKey k = some v) ∧
    (e.ids.getKey k = none →
      (updateCommonFrontmatter fm e).music_ids.getKey k = fm.music_ids.getKey k) := by
  have h1 : (updateCommonFrontmatter fm e).music_ids.getKey k
      = spreadKey (fm.music_ids.getKey k) (e.ids.getKey k) := by
    cases k <;> rfl
  refine ⟨h1, ?_, ?_⟩
  · intro v hv
    rw [h1, hv]
    rfl
  · intro hv
    rw [h1, hv]
    rfl

/-- Witness for the amended C1 at the concrete counterexample inputs. -/
theorem C1_amended_ids_merge_witness :
    (updateCommonFrontmatter c1Stored c1Incoming).music_ids.getKey IdKind.spotify_uri
      = spreadKey (c1Stored.music_ids.getKey IdKind.spotify_uri)
          (c1Incoming.ids.getKey IdKind.spotify_uri) ∧
    (∀ v, c1Incoming.ids.getKey IdKind.spotify_uri = some v →
      (updateCommonFrontmatter c1Stored c1Incoming).music_ids.getKey IdKind.spotify_uri
        = some v) ∧
    (c1Incoming.ids.getKey IdKind.spotify_uri = none →
      (updateCommonFrontmatter c1Stored c1Incoming).music_ids.getKey IdKind.spotify_uri
        = c1Stored.music_ids.getKey IdKind.spotify_uri) :=
  C1_amended_ids_merge c1Stored c1Incoming IdKind.spotify_uri

/-- C3: Evaluation of the frontmatter update at the failing input.  The
resulting document is identical to the original outside the volatile created
and modified fields, yet the modified timestamp is bumped to the current date:
hasFrontmatterChanges compares the full documents, including created and
modified, instead of the computed rest projections that exclude them, so the
zero-diff detection the claim describes does not hold in the code. -/
theorem C3_zero_diff_bug :
    restEq (updateArtistFrontmatter c3Original c3Artist "2025-10-11" id)
      c3Original = true ∧
    (updateArtistFrontmatter c3Original c3Artist "2025-10-11" id).modified
      = some "2025-10-11" ∧
    c3Original.modified = some "2024-01-01" := by
  refine ⟨?_, ?_, rfl⟩ <;> decide

/-- C2 counterexample: on an empty vault, with the artists fetch failing and
the albums fetch succeeding with a new album, the full sync pass ingests no
album at all and reports failure, so a failing category does prevent the other
categories of the same pass from being ingested, contrary to the claim. -/
theorem C2_counterexample :
    c2Fetched.albums = Except.ok [c2Album] ∧
    (MusicIdIndex.ofItems ({} : SyncState).albums fileIds).has c2Album.ids = false ∧
    (fullSync idEnrichers titleNaming {} c2Fetched).1.albums = [] ∧
    (fullSync idEnrichers titleNaming {} c2Fetched).2 = false := by
  refine ⟨rfl, ?_, ?_, ?_⟩ <;> decide

/-- C2 amended: a thrown error in any category fetch of a full sync pass
aborts the whole pass at the top-level catch: no category is ingested and no
library status is recomputed, even for categories whose own fetch succeeded;
only the freshen writes made before the fetches remain, and the pass reports
failure.  Only the legacy engine isolated failures, and only between the
liked-songs and per-playlist fetches of the track tier. -/
theorem C2_amended_fetch_failure_aborts (enr : SyncEnrichers) (nm : SyncNaming)
    (st : SyncState) (fetched : SyncFetched)
    (hfail : (fetched.artists.isOk && fetched.albums.isOk && fetched.tracks.isOk)
      = false) :
    fullSync enr nm st fetched =
      ({ artists := (freshenTier enr.artists (MusicIdIndex.ofItems st.artists fileIds)).1
         albums := (freshenTier enr.albums (MusicIdIndex.ofItems st.albums fileIds)).1
         tracks := (freshenTier enr.tracks (MusicIdIndex.ofItems st.tracks fileIds)).1 },
        false) := by
  rw [fullSync]
  cases ha : fetched.artists <;> cases hb : fetched.albums <;> cases hc : fetched.tracks <;>
    simp_all [Except.isOk, Except.toBool]

/-- Witness for the amended C2 at the concrete counterexample inputs. -/
theorem C2_amended_fetch_failure_aborts_witness :
    fullSync idEnrichers titleNaming {} c2Fetched =
      ({ artists := (freshenTier idEnrichers.artists
            (MusicIdIndex.ofItems ({} : SyncState).artists fileIds)).1
         albums := (freshenTier idEnrichers.albums
            (MusicIdIndex.ofItems ({} : SyncState).albums fileIds)).1
         tracks := (freshenTier idEnrichers.tracks
            (MusicIdIndex.ofItems ({} : SyncState).tracks fileIds)).1 },
        false) :=
  C2_amended_fetch_failure_aborts idEnrichers titleNaming {} c2Fetched (by decide)

theorem updateLibraryStatus_eq_map (saved : List MusicEntityData)
    (files : List MusicFileD) :
    updateLibraryStatus saved files = files.map (statusAgainst saved) := by
  simp only [updateLibraryStatus]
  apply List.map_congr_left
  intro a ha
  rfl

theorem take_map_append {α β : Type} (l : List α) (f : α → β) (r : List β) :
    ((l.map f) ++ r).take l.length = l.map f := by
  rw [← List.length_map l f]
  exact List.take_left _ _

/-- C5: After a successful full sync pass, every pre-existing (freshened) note
of every tier is still present and its music_sources.in_library flag equals
whether its identifiers match the freshly fetched saved collection of the pass, so
an entity absent from the current fetch ends with the flag false and its note
is not deleted; and an incremental pass, whether it succeeds or fails, leaves
every existing note unchanged, so it never sets the flag of an existing note to
false. -/
theorem C5_library_status (enr : SyncEnrichers) (nm : SyncNaming) (st : SyncState)
    (fetched : SyncFetched)
    (savedArtists savedAlbums savedTracks : List MusicEntityData)
    (ha : fetched.artists = Except.ok savedArtists)
    (hb : fetched.albums = Except.ok savedAlbums)
    (hc : fetched.tracks = Except.ok savedTracks) :
    ((fullSync enr nm st fetched).1.artists.take
        (freshenTier enr.artists (MusicIdIndex.ofItems st.artists fileIds)).1.length
      = (freshenTier enr.artists (MusicIdIndex.ofItems st.artists fileIds)).1.map
          (statusAgainst savedArtists) ∧
     (fullSync enr nm st fetched).1.albums.take
        (freshenTier enr.albums (MusicIdIndex.ofItems st.albums fileIds)).1.length
      = (freshenTier enr.albums (MusicIdIndex.ofItems st.albums fileIds)).1.map
          (statusAgainst savedAlbums) ∧
     (fullSync enr nm st fetched).1.tracks.take
        (freshenTier enr.tracks (MusicIdIndex.ofItems st.tracks fileIds)).1.length
      = (freshenTier enr.tracks (MusicIdIndex.ofItems st.tracks fileIds)).1.map
          (statusAgainst savedTracks)) ∧
    (∀ g : SyncFetched,
      (incrementalSync enr nm st g).1.artists.take st.artists.length = st.artists ∧
      (incrementalSync enr nm st g).1.albums.take st.albums.length = st.albums ∧
      (incrementalSync enr nm st g).1.tracks.take st.tracks.length = st.tracks) := by
  constructor
  · rw [fullSync, ha, hb, hc]
    refine ⟨?_, ?_, ?_⟩ <;>
      simp only [updateLibraryStatus_eq_map, take_map_append]
  · intro g
    rw [incrementalSync]
    cases g.artists <;> cases g.albums <;> cases g.tracks <;>
      simp [List.take_left, List.take_length]

/-- Witness for C5 at a concrete vault and fetch. -/
theorem C5_library_status_witness :
    ((fullSync idEnrichers titleNaming c5State c5Fetched).1.artists.take
        (freshenTier idEnrichers.artists
          (MusicIdIndex.ofItems c5State.artists fileIds)).1.length
      = (freshenTier idEnrichers.artists
          (MusicIdIndex.ofItems c5State.artists fileIds)).1.map (statusAgainst []) ∧
     (fullSync idEnrichers titleNaming c5State c5Fetched).1.albums.take
        (freshenTier idEnrichers.albums
          (MusicIdIndex.ofItems c5State.albums fileIds)).1.length
      = (freshenTier idEnrichers.albums
          (MusicIdIndex.ofItems c5State.albums fileIds)).1.map (statusAgainst []) ∧
     (fullSync idEnrichers titleNaming c5State c5Fetched).1.tracks.take
        (freshenTier idEnrichers.tracks
          (MusicIdIndex.ofItems c5State.tracks fileIds)).1.length
      = (freshenTier idEnrichers.tracks
          (MusicIdIndex.ofItems c5State.tracks fileIds)).1.map (statusAgainst [])) ∧
    (∀ g : SyncFetched,
      (incrementalSync idEnrichers titleNaming c5State g).1.artists.take
        c5State.artists.length = c5State.artists ∧
      (incrementalSync idEnrichers titleNaming c5State g).1.albums.take
        c5State.albums.length = c5State.albums ∧
      (incrementalSync idEnrichers titleNaming c5State g).1.tracks.take
        c5State.tracks.length = c5State.tracks) :=
  C5_library_status idEnrichers titleNaming c5State c5Fetched [] [] [] rfl rfl rfl

theorem assocGet_set_eq {T : Type} (idx : MusicIdIndex T) (ids : MusicIds)
    (item : T) (k : IdKind) (v : String) :
    assocGet ((idx.set ids item).mapFor k) v =
      if bindsKV ids k v then some item else assocGet (idx.mapFor k) v := by
  rw [mapFor_set, bindsKV]
  cases hr : ids.read k with
  | none => simp
  | some w =>
    by_cases hw : w = ""
    · simp [hw]
    · simp only [hw, if_false]
      rw [assocGet_cons]
      by_cases hwv : w = v <;> simp [hwv]

theorem assocGet_isSome_set {T : Type} (idx : MusicIdIndex T) (ids : MusicIds)
    (item : T) (k : IdKind) (v : String)
    (h : (assocGet (idx.mapFor k) v).isSome = true) :
    (assocGet ((idx.set ids item).mapFor k) v).isSome = true := by
  rw [assocGet_set_eq]
  by_cases hb : bindsKV ids k v <;> simp [hb, h]

theorem registerCreatedAlbums_preserve (newAlbums : List MusicFileD)
    (idx : MusicIdIndex MusicFileD) (k : IdKind) (v : String)
    (h : (assocGet (idx.mapFor k) v).isSome = true) :
    (assocGet ((registerCreatedAlbums idx newAlbums).mapFor k) v).isSome = true := by
  induction newAlbums generalizing idx with
  | nil => exact h
  | cons hd tl ih =>
    rw [registerCreatedAlbums, List.foldl_cons]
    exact ih _ (assocGet_isSome_set _ _ _ _ _ h)

theorem registerCreatedAlbums_registers (idx : MusicIdIndex MusicFileD)
    (l : List MusicFileD) (nf : MusicFileD) (hmem : nf ∈ l) (k : IdKind)
    (v : String) (hb : bindsKV (fileIds nf) k v = true) :
    (assocGet ((registerCreatedAlbums idx l).mapFor k) v).isSome = true := by
  induction l generalizing idx with
  | nil => cases hmem
  | cons hd tl ih =>
    rw [registerCreatedAlbums, List.foldl_cons]
    rcases List.mem_cons.mp hmem with heq | htl
    · subst heq
      apply registerCreatedAlbums_preserve
      rw [assocGet_set_eq, hb]
      simp
    · exact ih _ htl

theorem get_eq_of_uri {T : Type} (idx : MusicIdIndex T) (ids : MusicIds)
    (v : String) (hread : ids.read IdKind.spotify_uri = some v) (hv : ¬ v = "")
    (hreg : (assocGet (idx.mapFor IdKind.spotify_uri) v).isSome = true) :
    idx.get ids = assocGet (idx.mapFor IdKind.spotify_uri) v := by
  obtain ⟨it, hit⟩ := Option.isSome_iff_exists.mp hreg
  rw [MusicIdIndex.get, priorityOrder, MusicIdIndex.getFrom, hread]
  simp [hv, hit]

/-- C6 amended: after the album tier of a full sync pass has created and
registered a note whose identifiers match the album reference of a track, the album
field written for that track resolves through the album index to a markdown
link of the form double-bracket path bar title, not a plain title string.
Without the matching album note, in particular when the album is not part of
the saved-albums fetch, the plain title string is stored instead. -/
theorem C6_amended (basePath : String) (idx0 : MusicIdIndex MusicFileD)
    (newAlbums : List MusicFileD) (t : Track) (alb : SimplifiedAlbum) (v : String)
    (halb : t.album = some (some alb))
    (hread : alb.ids.read IdKind.spotify_uri = some v) (hv : ¬ v = "")
    (hcreated : ∃ nf ∈ newAlbums, fileIds nf = alb.ids) :
    ∃ f : MusicFileD,
      (registerCreatedAlbums idx0 newAlbums).get alb.ids = some f ∧
      trackAlbumFmField basePath (registerCreatedAlbums idx0 newAlbums) t =
        some (some ("[[" ++ relativePath basePath f.path ++ "|" ++ alb.title ++ "]]")) := by
  obtain ⟨nf, hmem, hids⟩ := hcreated
  have hbind : bindsKV (fileIds nf) IdKind.spotify_uri v = true := by
    rw [bindsKV, hids, hread]
    simp [hv]
  have hreg := registerCreatedAlbums_registers idx0 newAlbums nf hmem
    IdKind.spotify_uri v hbind
  have hgeq := get_eq_of_uri (registerCreatedAlbums idx0 newAlbums) alb.ids v
    hread hv hreg
  obtain ⟨f, hf⟩ := Option.isSome_iff_exists.mp hreg
  refine ⟨f, ?_, ?_⟩
  · rw [hgeq, hf]
  · simp only [trackAlbumFmField, halb, generateAlbumLink, generateEntityLink,
      hgeq, hf]

/-- C6 counterexample: when the album tier created no note for the album of
this track (the album is not in the saved-albums fetch and had no prior note),
the album field written for the track is the plain title string, not a
markdown link, refuting the unconditional claim. -/
theorem C6_counterexample :
    trackAlbumFmField "Music" (registerCreatedAlbums {} []) c6Track
      = some (some "Great Album") ∧
    "Great Album".data.take 2 ≠ "[[".data := by
  refine ⟨?_, ?_⟩ <;> decide

/-- Witness for the amended C6 at a concrete created album note. -/
theorem C6_amended_witness :
    ∃ f : MusicFileD,
      (registerCreatedAlbums {} [c6AlbumFile]).get c6SimpAlbum.ids = some f ∧
      trackAlbumFmField "Music" (registerCreatedAlbums {} [c6AlbumFile]) c6Track =
        some (some ("[[" ++ relativePath "Music" f.path ++ "|" ++
          c6SimpAlbum.title ++ "]]")) :=
  C6_amended "Music" {} [c6AlbumFile] c6Track c6SimpAlbum "spotify:album:g"
    rfl rfl (by decide) ⟨c6AlbumFile, by decide, rfl⟩

theorem sharesBinding_of_binds {a b : MusicIds} {k : IdKind} {v : String}
    (ha : bindsKV a k v = true) (hb : bindsKV b k v = true) :
    sharesBinding a b k = true := by
  rw [bindsKV] at ha hb
  rw [sharesBinding]
  cases hra : a.read k with
  | none =>
    rw [hra] at ha
    exact absurd ha (by simp)
  | some w =>
    rw [hra] at ha
    cases hrb : b.read k with
    | none =>
      rw [hrb] at hb
      exact absurd hb (by simp)
    | some u =>
      rw [hrb] at hb
      by_cases hw : w = ""
      · simp [hw] at ha
      · by_cases hu : u = ""
        · simp [hu] at hb
        · simp only [hw, hu, if_false, decide_eq_true_eq] at ha hb ⊢
          simp [ha, hb]

theorem filter_binds_le_one {T : Type} (gid : T → MusicIds) (k : IdKind)
    (v : String) (l : List T)
    (hpw : l.Pairwise
      (fun r1 r2 => ∀ k2 : IdKind, sharesBinding (gid r1) (gid r2) k2 = false)) :
    (l.filter (fun r => bindsKV (gid r) k v)).length ≤ 1 := by
  induction l with
  | nil => simp
  | cons hd tl ih =>
    rw [List.pairwise_cons] at hpw
    by_cases hb : bindsKV (gid hd) k v = true
    · rw [List.filter_cons_of_pos (by simpa using hb)]
      have htl : tl.filter (fun r => bindsKV (gid r) k v) = [] := by
        rw [List.filter_eq_nil_iff]
        intro x hx hbx
        have hshare := sharesBinding_of_binds hb (by simpa using hbx)
        rw [hpw.1 x hx k] at hshare
        exact absurd hshare (by simp)
      rw [htl]
      simp
    · rw [List.filter_cons_of_neg (by simpa using hb)]
      exact ih hpw.2

theorem assocGet_foldl_set {T : Type} (gid : T → MusicIds) (k : IdKind)
    (v : String) :
    ∀ (l : List T) (idx : MusicIdIndex T),
      assocGet ((l.foldl (fun i item => i.set (gid item) item) idx).mapFor k) v =
        match l.reverse.find? (fun r => bindsKV (gid r) k v) with
        | some r => some r
        | none => assocGet (idx.mapFor k) v := by
  intro l
  induction l with
  | nil => intro idx; rfl
  | cons hd tl ih =>
    intro idx
    rw [List.foldl_cons, ih]
    rw [List.reverse_cons, List.find?_append]
    cases hfind : tl.reverse.find? (fun r => bindsKV (gid r) k v) with
    | some r => simp [Option.or]
    | none =>
      rw [assocGet_set_eq]
      by_cases hb : bindsKV (gid hd) k v = true
      · rw [List.find?_cons_of_pos _ (by simpa using hb)]
        simp [Option.or, hb]
      · rw [List.find?_cons_of_neg _ (by simpa using hb)]
        simp [Option.or, hb]

theorem assocGet_ofItems {T : Type} (gid : T → MusicIds) (l : List T)
    (k : IdKind) (v : String) :
    assocGet ((MusicIdIndex.ofItems l gid).mapFor k) v =
      l.reverse.find? (fun r => bindsKV (gid r) k v) := by
  rw [MusicIdIndex.ofItems, assocGet_foldl_set]
  cases hfind : l.reverse.find? (fun r => bindsKV (gid r) k v) with
  | some r => rfl
  | none =>
    show assocGet (({} : MusicIdIndex T).mapFor k) v = none
    cases k <;> rfl

theorem find?_eq_head?_filter {α : Type} (p : α → Bool) :
    ∀ l : List α, l.find? p = (l.filter p).head? := by
  intro l
  induction l with
  | nil => rfl
  | cons h t ih =>
    by_cases hp : p h = true
    · rw [List.find?_cons_of_pos _ hp, List.filter_cons_of_pos hp]
      rfl
    · rw [List.find?_cons_of_neg _ hp, List.filter_cons_of_neg hp, ih]

theorem find?_reverse_of_short {α : Type} (p : α → Bool) (l : List α)
    (hshort : (l.filter p).length ≤ 1) :
    l.reverse.find? p = l.find? p := by
  rw [find?_eq_head?_filter, find?_eq_head?_filter, List.filter_reverse]
  cases hf : l.filter p with
  | nil => rfl
  | cons x t =>
    cases t with
    | nil => simp
    | cons y t2 =>
      exfalso
      rw [hf] at hshort
      simp at hshort

theorem find?_eq_of_perm_short {α : Type} (p : α → Bool) (l1 l2 : List α)
    (hperm : l2.Perm l1) (hshort : (l1.filter p).length ≤ 1) :
    l2.find? p = l1.find? p := by
  rw [find?_eq_head?_filter, find?_eq_head?_filter]
  have hpf : (l2.filter p).Perm (l1.filter p) := hperm.filter p
  cases hf : l1.filter p with
  | nil =>
    rw [hf] at hpf
    rw [List.perm_nil.mp hpf]
  | cons x t =>
    cases t with
    | nil =>
      rw [hf] at hpf
      rw [List.perm_singleton.mp hpf]
    | cons y t2 =>
      exfalso
      rw [hf] at hshort
      simp at hshort

theorem getFrom_congr {T : Type} (idx1 idx2 : MusicIdIndex T) (ids : MusicIds)
    (h : ∀ k v, assocGet (idx1.mapFor k) v = assocGet (idx2.mapFor k) v) :
    ∀ ks : List IdKind, idx1.getFrom ids ks = idx2.getFrom ids ks := by
  intro ks
  induction ks with
  | nil => rfl
  | cons k rest ih =>
    rw [MusicIdIndex.getFrom, MusicIdIndex.getFrom]
    cases hr : ids.read k with
    | none => exact ih
    | some v =>
      by_cases hv : v = ""
      · simp only [hv, if_true]
        exact ih
      · simp only [hv, if_false, h k v]
        cases assocGet (idx2.mapFor k) v with
        | some it => rfl
        | none => exact ih

theorem ofItems_get_eq_of_perm {T : Type} (gid : T → MusicIds) (l1 l2 : List T)
    (hperm : l2.Perm l1)
    (hpw : l1.Pairwise
      (fun r1 r2 => ∀ k2 : IdKind, sharesBinding (gid r1) (gid r2) k2 = false))
    (ids : MusicIds) :
    (MusicIdIndex.ofItems l2 gid).get ids = (MusicIdIndex.ofItems l1 gid).get ids := by
  rw [MusicIdIndex.get, MusicIdIndex.get]
  apply getFrom_congr
  intro k v
  rw [assocGet_ofItems, assocGet_ofItems]
  have hshort := filter_binds_le_one gid k v l1 hpw
  rw [find?_reverse_of_short _ _ hshort]
  exact find?_eq_of_perm_short _ l1 l2.reverse (l2.reverse_perm.trans hperm) hshort

/-- C8 counterexample: the second input entity yields no identifier through
getPrimaryId, yet it is not returned unchanged: its identifier set matches the
re-fetched record of the first entity through the identity index, so the merge
overwrites its fields, refuting the unconditional pass-through clause. -/
theorem C8_counterexample :
    spotifyGetPrimaryId c8ItemB.ids = none ∧
    (enrichItemsFromMusicLibrarySource spotifyGetPrimaryId c8Fetch
        [c8ItemA, c8ItemB]).map MusicEntityData.title
      = ["Enriched Title", "Enriched Title"] ∧
    ¬ c8ItemB.title = "Enriched Title" := by
  refine ⟨rfl, ?_, ?_⟩ <;> decide

/-- C8 amended: for every batch, the enrichment output has the same length and
order as the input: each slot is the input entity merged with its identity
index match, computed by identifier lookup, never by array position, so
re-fetch results arriving in any order produce the same output as long as no
two re-fetched records share a non-empty identifier value; when no input
yields a primary identifier the whole batch is returned unchanged; and an
input entity that yields no primary identifier is returned unchanged provided
it also matches no re-fetched record in the index. -/
theorem C8_amended_enrichment (g : MusicIds → Option String)
    (fe1 fe2 : List String → List MusicEntityData)
    (items : List MusicEntityData)
    (hperm : (fe2 ((items.map (fun it => g it.ids)).filterMap (fun x => x))).Perm
      (fe1 ((items.map (fun it => g it.ids)).filterMap (fun x => x))))
    (hpw : (fe1 ((items.map (fun it => g it.ids)).filterMap (fun x => x))).Pairwise
      (fun r1 r2 => ∀ k2 : IdKind, sharesBinding r1.ids r2.ids k2 = false)) :
    (enrichItemsFromMusicLibrarySource g fe1 items).length = items.length ∧
    ((items.map (fun it => g it.ids)).filterMap (fun x => x) = [] →
      enrichItemsFromMusicLibrarySource g fe1 items = items) ∧
    (∀ i : Nat, ∀ item : MusicEntityData, items[i]? = some item →
      g item.ids = none →
      (MusicIdIndex.ofItems
        (fe1 ((items.map (fun it => g it.ids)).filterMap (fun x => x)))
        MusicEntityData.ids).get item.ids = none →
      (enrichItemsFromMusicLibrarySource g fe1 items)[i]? = some item) ∧
    enrichItemsFromMusicLibrarySource g fe2 items =
      enrichItemsFromMusicLibrarySource g fe1 items := by
  by_cases hids : (items.map (fun it => g it.ids)).filterMap (fun x => x) = []
  · have h1 : enrichItemsFromMusicLibrarySource g fe1 items = items := by
      simp only [enrichItemsFromMusicLibrarySource]
      split
      · rfl
      · next hcond => exact absurd (by rw [hids]; rfl) hcond
    have h2 : enrichItemsFromMusicLibrarySource g fe2 items = items := by
      simp only [enrichItemsFromMusicLibrarySource]
      split
      · rfl
      · next hcond => exact absurd (by rw [hids]; rfl) hcond
    refine ⟨by rw [h1], fun _ => h1, ?_, by rw [h1, h2]⟩
    intro i item hi _ _
    rw [h1, hi]
  · have hne : ((items.map (fun it => g it.ids)).filterMap (fun x => x)).isEmpty
        = false := by
      cases hc : (items.map (fun it => g it.ids)).filterMap (fun x => x) with
      | nil => exact absurd hc hids
      | cons a b => rfl
    have h1 : enrichItemsFromMusicLibrarySource g fe1 items =
        items.map (fun item =>
          match (MusicIdIndex.ofItems
              (fe1 ((items.map (fun it => g it.ids)).filterMap (fun x => x)))
              MusicEntityData.ids).get item.ids with
          | some enriched => spreadEntity item enriched
          | none => item) := by
      simp only [enrichItemsFromMusicLibrarySource]
      split
      · next hcond =>
        exfalso
        rw [hne] at hcond
        exact Bool.false_ne_true hcond
      · rfl
    have h2 : enrichItemsFromMusicLibrarySource g fe2 items =
        items.map (fun item =>
          match (MusicIdIndex.ofItems
              (fe2 ((items.map (fun it => g it.ids)).filterMap (fun x => x)))
              MusicEntityData.ids).get item.ids with
          | some enriched => spreadEntity item enriched
          | none => item) := by
      simp only [enrichItemsFromMusicLibrarySource]
      split
      · next hcond =>
        exfalso
        rw [hne] at hcond
        exact Bool.false_ne_true hcond
      · rfl
    refine ⟨?_, ?_, ?_, ?_⟩
    · rw [h1, List.length_map]
    · intro h
      exact absurd h hids
    · intro i item hi hg hget
      rw [h1, List.getElem?_map, hi, Option.map_some']
      rw [hget]
    · rw [h1, h2]
      apply List.map_congr_left
      intro item hmem
      rw [ofItems_get_eq_of_perm MusicEntityData.ids _ _ hperm hpw item.ids]

/-- Witness for the amended C8 at a concrete batch and a concrete permutation
of the re-fetch results. -/
theorem C8_amended_enrichment_witness :
    (enrichItemsFromMusicLibrarySource spotifyGetPrimaryId c8FetchOrdered
      [c8ItemA, c8ItemB]).length = [c8ItemA, c8ItemB].length ∧
    (([c8ItemA, c8ItemB].map
        (fun it => spotifyGetPrimaryId it.ids)).filterMap (fun x => x) = [] →
      enrichItemsFromMusicLibrarySource spotifyGetPrimaryId c8FetchOrdered
        [c8ItemA, c8ItemB] = [c8ItemA, c8ItemB]) ∧
    (∀ i : Nat, ∀ item : MusicEntityData, [c8ItemA, c8ItemB][i]? = some item →
      spotifyGetPrimaryId item.ids = none →
      (MusicIdIndex.ofItems
        (c8FetchOrdered (([c8ItemA, c8ItemB].map
          (fun it => spotifyGetPrimaryId it.ids)).filterMap (fun x => x)))
        MusicEntityData.ids).get item.ids = none →
      (enrichItemsFromMusicLibrarySource spotifyGetPrimaryId c8FetchOrdered
        [c8ItemA, c8ItemB])[i]? = some item) ∧
    enrichItemsFromMusicLibrarySource spotifyGetPrimaryId c8FetchSwapped
      [c8ItemA, c8ItemB] =
      enrichItemsFromMusicLibrarySource spotifyGetPrimaryId c8FetchOrdered
        [c8ItemA, c8ItemB] :=
  C8_amended_enrichment spotifyGetPrimaryId c8FetchOrdered c8FetchSwapped
    [c8ItemA, c8ItemB] (List.Perm.swap c8RecX c8RecY []) (by decide)

end SpotifySync
